import Mathlib

/-!
Shallow embedding of the DynamoDB change-data-capture streaming pipeline of
HarbourBridge (package dynamodb, streaming data path).

External effects are modelled explicitly: calls to the DynamoDB Streams API,
the Spanner write callback and reads of the shared exit flag are supplied by
environment records whose fields are functions of the call index; loops carry
explicit fuel (a run that returns `none` ran out of fuel, i.e. the source loop
has not terminated within that many iterations); observable actions are
collected in traces of events.  A Go panic (index out of range) is modelled by
an `Option`-valued function returning `none`.
-/

namespace HarbourBridge

/-- Go error text. -/
abbrev GoErr := String

/-- `listHasPrefixCh sub hay` is true when `sub` occurs at the start of `hay`
(character-list version of Go `strings.HasPrefix`). -/
def listHasPrefixCh : List Char → List Char → Bool
  | [], _ => true
  | _ :: _, [] => false
  | a :: as, b :: bs => a == b && listHasPrefixCh as bs

/-- `listContainsSub sub hay` is true when `sub` occurs contiguously inside
`hay`. -/
def listContainsSub : List Char → List Char → Bool
  | sub, [] => listHasPrefixCh sub []
  | sub, c :: rest => listHasPrefixCh sub (c :: rest) || listContainsSub sub rest

/-- Go `strings.Contains hay sub`. -/
def strContains (hay sub : String) : Bool :=
  listContainsSub sub.data hay.data

/-- `checkTrimmedDataError` from the source: the error text mentions a
TrimmedDataAccessException. -/
def checkTrimmedDataError (e : GoErr) : Bool :=
  strContains e "TrimmedDataAccessException"

/-- `parentDataMissingError` from the source: the error text contains
"NotFound", "Parent row" and "is missing". -/
def parentDataMissingError (e : GoErr) : Bool :=
  strContains e "NotFound" && strContains e "Parent row" && strContains e "is missing"

/-- `schema.Key` as read by the streaming code: only the column name is
consulted. -/
structure SchemaKey where
  Column : String
deriving DecidableEq

/-- The fields of `schema.Table` read by the streaming code. -/
structure SchemaTable where
  ColNames : List String
  PrimaryKeys : List SchemaKey
deriving DecidableEq

/-- Spanner mutations built by `getMutation`.  Values are a type parameter
(Go `interface\x7b\x7d`); `Option` entries model nil slots. -/
inductive Mutation (α : Type) where
  | insert (table : String) (cols : List String) (vals : List (Option α))
  | insertOrUpdate (table : String) (cols : List String) (vals : List (Option α))
  | delete (table : String) (key : List α)
deriving DecidableEq

/-- The filtering loop at the top of `removeMutation`: walk `spVals` with
index `i`, skipping nil slots, collecting `(srcSchema.ColNames[i], spVals[i])`
for the non-nil ones.  Accessing a column name out of range is a Go panic,
modelled as `none`.  (The nil check happens before the column access, so
trailing nil slots beyond the column list do not panic.) -/
def collectKeys {α : Type} (colNames : List String) :
    List (Option α) → Nat → Option (List String × List α)
  | [], _ => some ([], [])
  | none :: rest, i => collectKeys colNames rest (i + 1)
  | some v :: rest, i =>
    (colNames[i]?).bind fun c =>
      (collectKeys colNames rest (i + 1)).map fun kv => (c :: kv.1, v :: kv.2)

/-- `removeMutation` from the source: keep the non-nil values together with
their source column names, then compare the declared first primary-key column
with the first kept column; when they differ, swap the first two kept values;
finally build a Delete with a one- or two-element key.  Each unchecked index
access of the source (`primaryKeys[0]`, `srcKeys[0]`, the `reqSpVals[1]` read
in the swap, and `reqSpVals[0]`/`reqSpVals[1]` in the key construction) is a
potential panic, modelled as `none`, in source evaluation order. -/
def removeMutation {α : Type} (srcSchema : SchemaTable) (spTable srcTable : String)
    (spVals : List (Option α)) : Option (Mutation α) :=
  (collectKeys srcSchema.ColNames spVals 0).bind fun kv =>
    (srcSchema.PrimaryKeys[0]?).bind fun pk0 =>
      (kv.1[0]?).bind fun k0 =>
        (if pk0.Column ≠ k0 then
          match kv.2 with
          | a :: b :: rest => some (b :: a :: rest)
          | _ => none
        else some kv.2).bind fun reqSpVals =>
          match reqSpVals with
          | [v] => some (Mutation.delete spTable [v])
          | a :: b :: _ => some (Mutation.delete spTable [a, b])
          | [] => none

/-- `getMutation` from the source: INSERT builds an Insert, MODIFY an
InsertOrUpdate, anything else (REMOVE) goes through `removeMutation`. -/
def getMutation {α : Type} (eventName srcTable spTable : String)
    (spCols : List String) (spVals : List (Option α)) (srcSchema : SchemaTable) :
    Option (Mutation α) :=
  if eventName = "INSERT" then some (Mutation.insert spTable spCols spVals)
  else if eventName = "MODIFY" then some (Mutation.insertOrUpdate spTable spCols spVals)
  else removeMutation srcSchema spTable srcTable spVals

/-- Events of the Spanner write loop (`writeMutation`). -/
inductive WEvent where
  | call (k : Nat)
  | sleep (secs : Nat)
deriving DecidableEq

/-- The loop body of `writeMutation` from the source.  `write k` is the result
of the k-th invocation of the injected `streamInfo.write` callback on the
(fixed) mutation, `none` meaning success.  `retryLimit` is the remaining
budget, `err` the value of the `err` variable carried into the loop test. -/
def writeMutationGo (write : Nat → Option GoErr) :
    Nat → Nat → Option GoErr → Option GoErr × List WEvent
  | 0, _, err => (err, [])
  | retryLimit + 1, k, _ =>
    match write k with
    | none => (none, [WEvent.call k])
    | some e =>
      if parentDataMissingError e then
        let r := writeMutationGo write retryLimit (k + 1) (some e)
        (r.1, WEvent.call k :: WEvent.sleep 4 :: r.2)
      else (some e, [WEvent.call k])

/-- `writeMutation` from the source: retry limit 1000, starting with a nil
`err`. -/
def writeMutation (write : Nat → Option GoErr) : Option GoErr × List WEvent :=
  writeMutationGo write 1000 0 none

/-- Observable actions of `ProcessRecord` / `writeRecord` on the shared
streaming state. -/
inductive REvent (α : Type) where
  | statsAddRecord (table event : String)
  | unexpected (msg : String)
  | statsAddBadRecord (table event : String)
  | collectBadRecord (event table : String) (cols vals : List String)
  | statsAddDroppedRecord (table event : String)
  | collectDroppedRecord (event table : String) (cols : List String)
      (vals : List (Option α)) (err : GoErr)
  | statsAddRecordProcessed
  | wev (w : WEvent)
deriving DecidableEq

/-- `writeRecord` from the source.  `writer` is `streamInfo.write` (`none` =
not configured); on a configured writer it builds the mutation via
`getMutation` (propagating the `removeMutation` panic as `none`), runs
`writeMutation`, and on a non-nil error counts the record as dropped and
collects event name, Spanner table, columns, values and the error. -/
def writeRecord {α : Type} (writer : Option (Nat → Option GoErr))
    (srcTable spTable eventName : String) (spCols : List String)
    (spVals : List (Option α)) (srcSchema : SchemaTable) :
    Option (List (REvent α)) :=
  match writer with
  | none =>
    some [REvent.statsAddBadRecord srcTable eventName,
      REvent.unexpected "Internal error: writeRecord called but writer not configured"]
  | some w =>
    match getMutation eventName srcTable spTable spCols spVals srcSchema with
    | none => none
    | some _ =>
      let r := writeMutation w
      let tail :=
        match r.1 with
        | some e => [REvent.statsAddDroppedRecord srcTable eventName,
            REvent.collectDroppedRecord eventName spTable spCols spVals e]
        | none => []
      some (r.2.map REvent.wev ++ tail)

/-- A DynamoDB Streams record as consumed by `ProcessRecord`: the event name
plus the key image and the new image (images are opaque here, type `ι`). -/
structure DRecord (ι : Type) where
  eventName : String
  keys : ι
  newImage : ι

/-- `ProcessRecord` from the source.  `schemaRes` is the outcome of
`getColsAndSchemas` (source schema, Spanner table, Spanner columns) and `cvt`
the behaviour of `cvtRow` (value vector, bad columns, source string values);
both depend on the `internal` package and the converter, which are external to
the streaming core, so they are parameters of the model.  The trace records,
in order: the unconditional record-count increment, then either the
schema-failure anomaly (followed by an early return), or the conversion
branch — `writeRecord` on no bad columns, bad-record accounting otherwise —
and finally the processed-count increment. -/
def ProcessRecord {α ι : Type} (writer : Option (Nat → Option GoErr))
    (schemaRes : Except GoErr (SchemaTable × String × List String))
    (cvt : ι → List (Option α) × List String × List String)
    (record : DRecord ι) (srcTable : String) : Option (List (REvent α)) :=
  let eventName := record.eventName
  let ev0 := [REvent.statsAddRecord srcTable eventName]
  match schemaRes with
  | .error e =>
    some (ev0 ++ [REvent.unexpected
      ("Cant get cols and schemas for table " ++ srcTable ++ ": " ++ e)])
  | .ok (srcSchema, spTable, spCols) =>
    let srcImage := if eventName = "REMOVE" then record.keys else record.newImage
    let c := cvt srcImage
    let spVals := c.1
    let badCols := c.2.1
    let srcStrVals := c.2.2
    let mid :=
      if badCols = [] then
        writeRecord writer srcTable spTable eventName spCols spVals srcSchema
      else
        some [REvent.statsAddBadRecord srcTable eventName,
          REvent.collectBadRecord eventName srcTable srcSchema.ColNames srcStrVals]
    mid.map fun m => ev0 ++ m ++ [REvent.statsAddRecordProcessed]

/-- A stream record as consumed by the shard loop: only the sequence number
is read there. -/
structure StreamRecord where
  sequenceNumber : String
deriving DecidableEq

/-- Result of a successful `getRecords` call. -/
structure RecordsOutput where
  records : List StreamRecord
  nextShardIterator : Option String
deriving DecidableEq

/-- Environment of one `ProcessShard` worker: outcomes of the n-th
`getShardIterator` and `getRecords` calls, the value read from
`ShardProcessed[parent]` at the n-th poll (a missing map entry reads false in
Go), and the value of `UserExit` at its n-th read inside the loop. -/
structure ShardEnv where
  getIter : Nat → Except GoErr String
  getRecs : Nat → Except GoErr RecordsOutput
  parentPoll : Nat → Bool
  userExit : Nat → Bool

/-- Observable actions of a `ProcessShard` worker. -/
inductive SEvent where
  | parentPoll (value : Bool)
  | sleep (secs : Nat)
  | setStatus (shardId : String) (done : Bool)
  | getIterCall (lastSeq : Option String)
  | getRecsCall (iter : String)
  | processRec (seq : String)
  | unexpected (msg : String)
deriving DecidableEq

/-- Loop variables of `ProcessShard`, plus call counters indexing the
environment. -/
structure ShardLoopState where
  lastEvaluatedSequenceNumber : Option String
  passAfterUserExit : Bool
  retryCount : Nat
  nIter : Nat
  nRecs : Nat
  nExit : Nat
deriving DecidableEq

/-- Outcome of one loop iteration: continue with a new state, or break. -/
inductive StepOut (σ ε : Type) where
  | next (s : σ) (tr : List ε)
  | stop (tr : List ε)
deriving DecidableEq

/-- One iteration of the `ProcessShard` loop, exactly following the source:
get a shard iterator (trimmed-data error resets the sequence number and
continues; other errors record an anomaly and break), fetch records (a
trimmed-data error with `retryCount < 5` resets the sequence number,
increments `retryCount` and continues; otherwise anomaly and break; success
resets `retryCount` to 0), process every record updating the sequence number,
then break when `NextShardIterator` is nil or `passAfterUserExit` is set,
else read `UserExit` (setting `passAfterUserExit`), else sleep 5 seconds on an
empty batch. -/
def shardStep (env : ShardEnv) (s : ShardLoopState) : StepOut ShardLoopState SEvent :=
  match env.getIter s.nIter with
  | .error e =>
    if checkTrimmedDataError e then
      .next { s with lastEvaluatedSequenceNumber := none, nIter := s.nIter + 1 }
        [SEvent.getIterCall s.lastEvaluatedSequenceNumber]
    else
      .stop [SEvent.getIterCall s.lastEvaluatedSequenceNumber,
        SEvent.unexpected ("failed to get shardIterator: " ++ e)]
  | .ok it =>
    match env.getRecs s.nRecs with
    | .error e =>
      if checkTrimmedDataError e ∧ s.retryCount < 5 then
        .next { s with
                lastEvaluatedSequenceNumber := none,
                retryCount := s.retryCount + 1,
                nIter := s.nIter + 1,
                nRecs := s.nRecs + 1 }
          [SEvent.getIterCall s.lastEvaluatedSequenceNumber, SEvent.getRecsCall it]
      else
        .stop [SEvent.getIterCall s.lastEvaluatedSequenceNumber, SEvent.getRecsCall it,
          SEvent.unexpected ("failed to fetch records: " ++ e)]
    | .ok out =>
      let recEvs := out.records.map fun r => SEvent.processRec r.sequenceNumber
      let lastSeq2 := out.records.foldl
        (fun _ r => some r.sequenceNumber) s.lastEvaluatedSequenceNumber
      let base := SEvent.getIterCall s.lastEvaluatedSequenceNumber ::
        SEvent.getRecsCall it :: recEvs
      if out.nextShardIterator = none ∨ s.passAfterUserExit then
        .stop base
      else if env.userExit s.nExit then
        .next { lastEvaluatedSequenceNumber := lastSeq2,
                passAfterUserExit := true,
                retryCount := 0,
                nIter := s.nIter + 1,
                nRecs := s.nRecs + 1,
                nExit := s.nExit + 1 } base
      else if out.records = [] then
        .next { lastEvaluatedSequenceNumber := lastSeq2,
                passAfterUserExit := s.passAfterUserExit,
                retryCount := 0,
                nIter := s.nIter + 1,
                nRecs := s.nRecs + 1,
                nExit := s.nExit + 1 }
          (base ++ [SEvent.sleep 5])
      else
        .next { lastEvaluatedSequenceNumber := lastSeq2,
                passAfterUserExit := s.passAfterUserExit,
                retryCount := 0,
                nIter := s.nIter + 1,
                nRecs := s.nRecs + 1,
                nExit := s.nExit + 1 } base

/-- The `ProcessShard` loop with fuel; `(none, tr)` means the loop had not
terminated after `fuel` iterations. -/
def shardLoop (env : ShardEnv) : Nat → ShardLoopState → Option Unit × List SEvent
  | 0, _ => (none, [])
  | fuel + 1, s =>
    match shardStep env s with
    | .stop tr => (some (), tr)
    | .next s2 tr =>
      let r := shardLoop env fuel s2
      (r.1, tr ++ r.2)

/-- Initial loop variables of `ProcessShard`. -/
def initShardLoopState : ShardLoopState :=
  { lastEvaluatedSequenceNumber := none, passAfterUserExit := false,
    retryCount := 0, nIter := 0, nRecs := 0, nExit := 0 }

/-- `waitForParentShard` from the source: with a parent present, read the
parent's `ShardProcessed` entry; return on true, sleep 6 seconds and re-poll
on false.  `k` counts the polls made so far; fuel bounds the observation. -/
def waitForParentShard (polls : Nat → Bool) : Nat → Nat → Option Unit × List SEvent
  | 0, _ => (none, [])
  | fuel + 1, k =>
    if polls k then (some (), [SEvent.parentPoll true])
    else
      let r := waitForParentShard polls fuel (k + 1)
      (r.1, SEvent.parentPoll false :: SEvent.sleep 6 :: r.2)

/-- The trailing `SetShardStatus(id, true)` of `ProcessShard`, emitted only
when the loop terminated. -/
def statusTail (r : Option Unit) (shardId : String) : List SEvent :=
  match r with
  | some _ => [SEvent.setStatus shardId true]
  | none => []

/-- `ProcessShard` from the source: wait for the parent shard (no wait at all
when `parentShardId` is nil), mark the shard in progress, run the record loop,
and mark the shard done on loop exit. -/
def ProcessShard (env : ShardEnv) (shardId : String) (parentShardId : Option String)
    (fuel wfuel : Nat) : Option Unit × List SEvent :=
  match parentShardId with
  | none =>
    let l := shardLoop env fuel initShardLoopState
    (l.1, SEvent.setStatus shardId false :: (l.2 ++ statusTail l.1 shardId))
  | some _ =>
    let w := waitForParentShard env.parentPoll wfuel 0
    match w.1 with
    | none => (none, w.2)
    | some _ =>
      let l := shardLoop env fuel initShardLoopState
      (l.1, w.2 ++ SEvent.setStatus shardId false :: (l.2 ++ statusTail l.1 shardId))

/-- A shard as listed in a DescribeStream result. -/
structure ShardDesc where
  shardId : String
  parentShardId : Option String
deriving DecidableEq

/-- Result of a successful DescribeStream call. -/
structure StreamDescription where
  shards : List ShardDesc
  lastEvaluatedShardId : Option String
deriving DecidableEq

/-- Environment of the `ProcessStream` discovery loop: the outcome of the n-th
DescribeStream call and the value of `UserExit` at its n-th read. -/
structure StreamEnv where
  describe : Nat → Except GoErr StreamDescription
  userExit : Nat → Bool

/-- Observable actions of the discovery loop.  `dispatch` marks the spawning
of a `ProcessShard` worker goroutine for a shard id. -/
inductive PEvent where
  | describeCall (exclusiveStartShardId : Option String)
  | dispatch (shardId : String)
  | sleep (secs : Nat)
  | unexpected (msg : String)
deriving DecidableEq

/-- Loop variables of `ProcessStream`, plus call counters. -/
structure StreamLoopState where
  lastProcessedShardId : Option String
  passAfterUserExit : Bool
  nDesc : Nat
  nExit : Nat
deriving DecidableEq

/-- One iteration of the `ProcessStream` loop, exactly following the source:
describe the stream (error: anomaly and break); dispatch one worker per
returned shard, advancing `lastProcessedShardId` to each shard id in turn;
break when `LastEvaluatedShardId` is nil and `passAfterUserExit` holds;
otherwise read `UserExit` (setting `passAfterUserExit` on true), else sleep 10
seconds when no shards were returned. -/
def streamStep (env : StreamEnv) (s : StreamLoopState) : StepOut StreamLoopState PEvent :=
  match env.describe s.nDesc with
  | .error e =>
    .stop [PEvent.describeCall s.lastProcessedShardId,
      PEvent.unexpected ("failed to fetch shards: " ++ e)]
  | .ok res =>
    let disp := res.shards.map fun sh => PEvent.dispatch sh.shardId
    let last2 := res.shards.foldl (fun _ sh => some sh.shardId) s.lastProcessedShardId
    let base := PEvent.describeCall s.lastProcessedShardId :: disp
    if res.lastEvaluatedShardId = none ∧ s.passAfterUserExit then
      .stop base
    else if env.userExit s.nExit then
      .next { lastProcessedShardId := last2,
              passAfterUserExit := true,
              nDesc := s.nDesc + 1,
              nExit := s.nExit + 1 } base
    else if res.shards = [] then
      .next { lastProcessedShardId := last2,
              passAfterUserExit := s.passAfterUserExit,
              nDesc := s.nDesc + 1,
              nExit := s.nExit + 1 } (base ++ [PEvent.sleep 10])
    else
      .next { lastProcessedShardId := last2,
              passAfterUserExit := s.passAfterUserExit,
              nDesc := s.nDesc + 1,
              nExit := s.nExit + 1 } base

/-- The `ProcessStream` loop with fuel. -/
def streamLoop (env : StreamEnv) : Nat → StreamLoopState → Option Unit × List PEvent
  | 0, _ => (none, [])
  | fuel + 1, s =>
    match streamStep env s with
    | .stop tr => (some (), tr)
    | .next s2 tr =>
      let r := streamLoop env fuel s2
      (r.1, tr ++ r.2)

/-- Initial loop variables of `ProcessStream`. -/
def initStreamLoopState : StreamLoopState :=
  { lastProcessedShardId := none, passAfterUserExit := false, nDesc := 0, nExit := 0 }

/-- `ProcessStream` from the source (the loop part; the final wait on the
shard wait group carries no observable action here). -/
def ProcessStream (env : StreamEnv) (fuel : Nat) : Option Unit × List PEvent :=
  streamLoop env fuel initStreamLoopState

/-- State of the `cutoverHelper` loop (Go int64 arithmetic; counts of
processed records are far below 2^63, so overflow is not modelled). -/
structure CutState where
  timer : Nat
  firstFiveMin : Int
  lastFiveMin : Int
  tillLastMin : Int
  arr : List Int
deriving DecidableEq

/-- Initial state of `cutoverHelper`: zero counters and a five-element ring of
zeros. -/
def cutInit : CutState :=
  { timer := 0, firstFiveMin := 0, lastFiveMin := 0, tillLastMin := 0,
    arr := [0, 0, 0, 0, 0] }

/-- One 60-second tick of `cutoverHelper`, exactly following the source:
`counter := timer % 5`; subtract the replaced ring element from
`lastFiveMin`; store the new one-minute delta (current `recordsProcessed`
reading `rp` minus `tillLastMin`) in the ring; advance `tillLastMin`; add the
delta to `lastFiveMin`, and to `firstFiveMin` while `timer < 5`; report
`optimumCondition = (lastFiveMin*100 ≤ 5*firstFiveMin) or (lastMin == 0)`;
increment the timer. -/
def cutStep (rp : Int) (s : CutState) : CutState × Bool :=
  let counter := s.timer % 5
  let old := s.arr.getD counter 0
  let l1 := s.lastFiveMin - old
  let d := rp - s.tillLastMin
  let arr2 := s.arr.set counter d
  let till2 := s.tillLastMin + d
  let l2 := l1 + d
  let first2 := if s.timer < 5 then s.firstFiveMin + d else s.firstFiveMin
  let lastMin := d
  let opt := decide (l2 * 100 ≤ 5 * first2) || decide (lastMin = 0)
  ({ timer := s.timer + 1, firstFiveMin := first2, lastFiveMin := l2,
     tillLastMin := till2, arr := arr2 }, opt)

/-- The `cutoverHelper` loop over the successive `recordsProcessed` readings
(one per surviving 60-second tick; the loop body runs once per element, so a
`UserExit` break simply truncates the list).  Returns the final state and the
reported optimum flags in tick order. -/
def cutoverHelper (snaps : List Int) (s : CutState) : CutState × List Bool :=
  match snaps with
  | [] => (s, [])
  | rp :: rest =>
    let x := cutStep rp s
    let r := cutoverHelper rest x.1
    (r.1, x.2 :: r.2)

/-- Number of write-callback invocations in a `writeMutation` trace. -/
def countWCalls : List WEvent → Nat
  | [] => 0
  | WEvent.call _ :: r => countWCalls r + 1
  | _ :: r => countWCalls r

/-- Number of `StatsAddRecordProcessed` increments in a `ProcessRecord`
trace. -/
def countProcessedR {α : Type} : List (REvent α) → Nat
  | [] => 0
  | REvent.statsAddRecordProcessed :: r => countProcessedR r + 1
  | _ :: r => countProcessedR r

/-- Number of anomalies (`Unexpected`) in a shard-worker trace. -/
def countUnexpectedS : List SEvent → Nat
  | [] => 0
  | SEvent.unexpected _ :: r => countUnexpectedS r + 1
  | _ :: r => countUnexpectedS r

/-- Number of `getRecords` calls in a shard-worker trace. -/
def countGetRecsS : List SEvent → Nat
  | [] => 0
  | SEvent.getRecsCall _ :: r => countGetRecsS r + 1
  | _ :: r => countGetRecsS r

/-- Number of `ProcessRecord` invocations in a shard-worker trace. -/
def countProcessRecS : List SEvent → Nat
  | [] => 0
  | SEvent.processRec _ :: r => countProcessRecS r + 1
  | _ :: r => countProcessRecS r

/-- Number of DescribeStream calls in a discovery-loop trace. -/
def countDescribeP : List PEvent → Nat
  | [] => 0
  | PEvent.describeCall _ :: r => countDescribeP r + 1
  | _ :: r => countDescribeP r

/-- The shard ids dispatched to workers, in dispatch order. -/
def dispatchIds : List PEvent → List String
  | [] => []
  | PEvent.dispatch i :: r => i :: dispatchIds r
  | _ :: r => dispatchIds r

/-- Number of workers dispatched for a given shard id. -/
def countDispatchOf (i : String) (tr : List PEvent) : Nat :=
  (dispatchIds tr).count i

/-- The shard ids listed by one DescribeStream outcome (none on error). -/
def idsOfRes : Except GoErr StreamDescription → List String
  | .error _ => []
  | .ok res => res.shards.map fun sh => sh.shardId

/-- The successive writes of the `cutoverHelper` ring buffer: starting from
ring `r` at tick `t`, write each delta at slot `tick % 5`.  `ringWr base 0 ds`
is the ring contents after the deltas `ds`. -/
def ringWr : List Int → Nat → List Int → List Int
  | r, _, [] => r
  | r, t, d :: rest => ringWr (r.set (t % 5) d) (t + 1) rest

/-- Abstraction function for the `cutoverHelper` state: the state reached
after consuming the per-minute deltas `ds` — `firstFiveMin` is the sum of the
first five deltas, `lastFiveMin` the sum of the most recent five, and the ring
holds the deltas indexed by tick mod 5. -/
def stateAfter (ds : List Int) : CutState :=
  { timer := ds.length, firstFiveMin := (ds.take 5).sum,
    lastFiveMin := (ds.drop (ds.length - 5)).sum, tillLastMin := ds.sum,
    arr := ringWr [0, 0, 0, 0, 0] 0 ds }

/-- Modelled from the spec (claim wording): the per-minute record-count
deltas determined by the successive `recordsProcessed` readings, starting
from a previous total `prev`. -/
def minuteDeltasFrom (prev : Int) : List Int → List Int
  | [] => []
  | rp :: rest => (rp - prev) :: minuteDeltasFrom rp rest

/-- Modelled from the spec (claim wording): the per-minute deltas of a run,
the counter starting at zero. -/
def minuteDeltas (snaps : List Int) : List Int :=
  minuteDeltasFrom 0 snaps

/-- Modelled from the spec (claim wording): the optimum flag after the delta
history `ds` (most recent delta last) — true exactly when 100 times the sum
of the most recent five deltas is at most 5 times the sum of the first five
deltas, or the most recent delta is zero. -/
def cutoverSpecFlag (ds : List Int) : Bool :=
  decide (100 * (ds.drop (ds.length - 5)).sum ≤ 5 * (ds.take 5).sum) ||
    decide (ds.getLast? = some 0)

/-- Modelled from the spec (claim wording): the expected optimum flags for
the deltas `rest` arriving after the history `ds`. -/
def cutoverSpecFlags : List Int → List Int → List Bool
  | _, [] => []
  | ds, d :: rest => cutoverSpecFlag (ds ++ [d]) :: cutoverSpecFlags (ds ++ [d]) rest

/-- Shard environment whose `getRecords` always fails with a
TrimmedDataAccessException while `getShardIterator` succeeds (a closed shard
whose records have all expired). -/
def envTrimRecs : ShardEnv :=
  { getIter := fun _ => .ok "iter",
    getRecs := fun _ => .error "TrimmedDataAccessException: records expired",
    parentPoll := fun _ => false,
    userExit := fun _ => false }

/-- Shard environment whose calls all succeed, returning empty batches on an
open shard. -/
def envOkEmpty : ShardEnv :=
  { getIter := fun _ => .ok "iter",
    getRecs := fun _ => .ok { records := [], nextShardIterator := some "next" },
    parentPoll := fun _ => false,
    userExit := fun _ => false }

/-- Shard environment whose `getShardIterator` always fails with a
TrimmedDataAccessException. -/
def envTrimIter : ShardEnv :=
  { getIter := fun _ => .error "TrimmedDataAccessException: iterator expired",
    getRecs := fun _ => .ok { records := [], nextShardIterator := none },
    parentPoll := fun _ => false,
    userExit := fun _ => false }

/-- Shard environment whose parent flag reads false at the first poll and
true from the second poll on, with a closed empty shard behind it. -/
def envParentSecondPoll : ShardEnv :=
  { getIter := fun _ => .ok "iter",
    getRecs := fun _ => .ok { records := [], nextShardIterator := none },
    parentPoll := fun n => n != 0,
    userExit := fun _ => false }

/-- Stream environment for which `UserExit` is true from the start while
DescribeStream keeps returning a non-nil `LastEvaluatedShardId` and no
shards. -/
def envMorePages : StreamEnv :=
  { describe := fun _ => .ok { shards := [], lastEvaluatedShardId := some "more" },
    userExit := fun _ => true }

/-- Stream environment whose first two DescribeStream results both list shard
"s1" (the second pass repeats the shard), with `UserExit` turning true after
the first pass. -/
def envRepeatShard : StreamEnv :=
  { describe := fun n =>
      if n = 0 then
        .ok { shards := [{ shardId := "s1", parentShardId := none }],
              lastEvaluatedShardId := some "s1" }
      else if n = 1 then
        .ok { shards := [{ shardId := "s1", parentShardId := none }],
              lastEvaluatedShardId := none }
      else .ok { shards := [], lastEvaluatedShardId := none },
    userExit := fun n => n != 0 }

/-! ### Helper lemmas -/

/-- When every slot of the value vector is nil, the filtering loop keeps
nothing. -/
theorem collectKeys_all_none {α : Type} (colNames : List String)
    (spVals : List (Option α)) (h : ∀ x ∈ spVals, x = none) (i : Nat) :
    collectKeys colNames spVals i = some ([], []) := by
  induction spVals generalizing i with
  | nil => rfl
  | cons hd tl ih =>
    have hhd := h hd (by simp)
    subst hhd
    simpa [collectKeys] using ih (fun x hx => h x (by simp [hx])) (i + 1)

/-! ### C2 -/

/-- C2: for a REMOVE event, `removeMutation` keeps exactly the non-nil
entries of the value vector in column order and swaps the first two kept
values exactly when the first kept source column differs from the declared
first primary-key column, so under the DynamoDB key shape (the kept columns
are the declared primary-key columns, hash `h` then optional range `r`) the
resulting Delete key tuple is in declared primary-key order: `[vh]`, or
`[vh, vr]` whichever order the two keys were kept in. -/
theorem claim2_removeMutation_declared_key_order {α : Type}
    (srcSchema : SchemaTable) (spTable srcTable : String)
    (spVals : List (Option α)) (h r : String) (vh vr : α) :
    (srcSchema.PrimaryKeys = [⟨h⟩, ⟨r⟩] → h ≠ r →
      (collectKeys srcSchema.ColNames spVals 0 = some ([h, r], [vh, vr]) ∨
        collectKeys srcSchema.ColNames spVals 0 = some ([r, h], [vr, vh])) →
      removeMutation srcSchema spTable srcTable spVals =
        some (Mutation.delete spTable [vh, vr])) ∧
    (srcSchema.PrimaryKeys = [⟨h⟩] →
      collectKeys srcSchema.ColNames spVals 0 = some ([h], [vh]) →
      removeMutation srcSchema spTable srcTable spVals =
        some (Mutation.delete spTable [vh])) := by
  constructor
  · intro hpk hne hc
    rcases hc with hc | hc
    · simp [removeMutation, hc, hpk]
    · simp [removeMutation, hc, hpk, hne]
  · intro hpk hc
    simp [removeMutation, hc, hpk]

/-- C2 witness. -/
theorem claim2_removeMutation_declared_key_order_witness :
    removeMutation (α := Nat) ⟨["r", "h"], [⟨"h"⟩, ⟨"r"⟩]⟩ "T" "t"
        [some 2, some 1] = some (Mutation.delete "T" [1, 2]) ∧
    removeMutation (α := Nat) ⟨["h", "x"], [⟨"h"⟩]⟩ "T" "t"
        [some 1, none] = some (Mutation.delete "T" [1]) := by
  constructor
  · exact (claim2_removeMutation_declared_key_order ⟨["r", "h"], [⟨"h"⟩, ⟨"r"⟩]⟩
      "T" "t" [some 2, some 1] "h" "r" 1 2).1 rfl (by decide) (Or.inr (by decide))
  · exact (claim2_removeMutation_declared_key_order ⟨["h", "x"], [⟨"h"⟩]⟩
      "T" "t" [some 1, none] "h" "r" 1 2).2 rfl (by decide)

/-! ### C9 -/

/-- C9: `removeMutation` panics (modelled `none`) when the value vector has
no non-nil entry, or exactly one whose source column differs from the
declared first primary-key column; the single-element Delete key is produced
only when the lone kept column equals the declared first primary-key
column. -/
theorem claim9_removeMutation_panic_on_short_keys {α : Type}
    (srcSchema : SchemaTable) (spTable srcTable : String)
    (spVals : List (Option α)) (c : String) (v : α) :
    ((∀ x ∈ spVals, x = none) →
      removeMutation srcSchema spTable srcTable spVals = none) ∧
    (collectKeys srcSchema.ColNames spVals 0 = some ([c], [v]) →
      ∀ pk0 pkrest, srcSchema.PrimaryKeys = pk0 :: pkrest →
        (pk0.Column ≠ c → removeMutation srcSchema spTable srcTable spVals = none) ∧
        (pk0.Column = c → removeMutation srcSchema spTable srcTable spVals =
          some (Mutation.delete spTable [v]))) := by
  constructor
  · intro hall
    have hc := collectKeys_all_none srcSchema.ColNames spVals hall 0
    cases hpk : srcSchema.PrimaryKeys[0]? <;> simp [removeMutation, hc, hpk]
  · intro hc pk0 pkrest hpk
    constructor
    · intro hne
      simp [removeMutation, hc, hpk, hne]
    · intro heq
      simp [removeMutation, hc, hpk, heq]

/-- C9 witness. -/
theorem claim9_removeMutation_panic_on_short_keys_witness :
    removeMutation (α := Nat) ⟨["h", "x"], [⟨"h"⟩]⟩ "T" "t" [none, none] = none ∧
    removeMutation (α := Nat) ⟨["h", "x"], [⟨"h"⟩]⟩ "T" "t" [none, some 9] = none ∧
    removeMutation (α := Nat) ⟨["h", "x"], [⟨"h"⟩]⟩ "T" "t" [some 9, none] =
      some (Mutation.delete "T" [9]) := by
  refine ⟨?_, ?_, ?_⟩
  · exact (claim9_removeMutation_panic_on_short_keys ⟨["h", "x"], [⟨"h"⟩]⟩
      "T" "t" [none, none] "h" 9).1 (by decide)
  · exact (((claim9_removeMutation_panic_on_short_keys ⟨["h", "x"], [⟨"h"⟩]⟩
      "T" "t" [none, some 9] "x" 9).2 (by decide) ⟨"h"⟩ [] rfl).1 (by decide))
  · exact (((claim9_removeMutation_panic_on_short_keys ⟨["h", "x"], [⟨"h"⟩]⟩
      "T" "t" [some 9, none] "h" 9).2 (by decide) ⟨"h"⟩ [] rfl).2 rfl)

/-- One-step unfolding of the write loop. -/
theorem writeMutationGo_succ (write : Nat → Option GoErr) (n k : Nat)
    (prev : Option GoErr) :
    writeMutationGo write (n + 1) k prev =
      match write k with
      | none => (none, [WEvent.call k])
      | some e =>
        if parentDataMissingError e then
          ((writeMutationGo write n (k + 1) (some e)).1,
            WEvent.call k :: WEvent.sleep 4 ::
              (writeMutationGo write n (k + 1) (some e)).2)
        else (some e, [WEvent.call k]) := rfl

/-- The write loop makes at most `retryLimit` callback invocations. -/
theorem writeMutationGo_calls_le (write : Nat → Option GoErr) :
    ∀ (n k : Nat) (prev : Option GoErr),
      countWCalls (writeMutationGo write n k prev).2 ≤ n := by
  intro n
  induction n with
  | zero => intro k prev; simp [writeMutationGo, countWCalls]
  | succ m ih =>
    intro k prev
    cases hw : write k with
    | none => simp [writeMutationGo, hw, countWCalls]
    | some e =>
      by_cases hp : parentDataMissingError e
      · simpa [writeMutationGo, hw, hp, countWCalls] using
          Nat.succ_le_succ (ih (k + 1) (some e))
      · simp [writeMutationGo, hw, hp, countWCalls]

/-- When every attempt in the window fails with a parent-data-missing error,
the loop spends its whole budget: it makes exactly `n` calls and returns the
result of the last one. -/
theorem writeMutationGo_exhaust (write : Nat → Option GoErr) :
    ∀ (n k : Nat) (prev : Option GoErr),
      (∀ j, j < n → ∃ e, write (k + j) = some e ∧ parentDataMissingError e = true) →
      1 ≤ n →
      (writeMutationGo write n k prev).1 = write (k + n - 1) ∧
        countWCalls (writeMutationGo write n k prev).2 = n := by
  intro n
  induction n with
  | zero => intro k prev _ h1; omega
  | succ m ih =>
    intro k prev hall _
    obtain ⟨e, hw, hp⟩ := hall 0 (by omega)
    simp only [Nat.add_zero] at hw
    cases m with
    | zero =>
      simp [writeMutationGo, hw, hp, countWCalls]
    | succ m2 =>
      have hall2 : ∀ j, j < m2 + 1 →
          ∃ e2, write (k + 1 + j) = some e2 ∧ parentDataMissingError e2 = true := by
        intro j hj
        obtain ⟨e2, hw2, hp2⟩ := hall (j + 1) (by omega)
        refine ⟨e2, ?_, hp2⟩
        rw [show k + 1 + j = k + (j + 1) from by omega]
        exact hw2
      have hrec := ih (k + 1) (some e) hall2 (by omega)
      refine ⟨?_, ?_⟩
      · rw [writeMutationGo_succ, hw]
        simp only [hp, ite_true]
        rw [hrec.1]
        congr 1
        omega
      · rw [writeMutationGo_succ, hw]
        simp only [hp, ite_true, countWCalls]
        rw [hrec.2]

/-! ### C3 -/

/-- C3: `writeMutation` re-invokes the injected write callback only while the
error text contains "NotFound", "Parent row" and "is missing" (with a
4-second sleep between attempts), for at most 1000 attempts; a success or any
other error returns immediately after a single attempt; when all 1000
attempts fail with the parent-missing error the last error is returned after
exactly 1000 calls; and when `writeMutation` returns a non-nil error,
`writeRecord` counts the record as dropped and collects the mutation's event
name, table, columns, values and the error. -/
theorem claim3_writeMutation_retry_policy {α : Type} :
    (∀ write : Nat → Option GoErr, countWCalls (writeMutation write).2 ≤ 1000) ∧
    (∀ write : Nat → Option GoErr, write 0 = none →
      writeMutation write = (none, [WEvent.call 0])) ∧
    (∀ (write : Nat → Option GoErr) (e : GoErr), write 0 = some e →
      parentDataMissingError e = false →
      writeMutation write = (some e, [WEvent.call 0])) ∧
    (∀ (write : Nat → Option GoErr) (n k : Nat) (prev : Option GoErr) (e : GoErr),
      write k = some e → parentDataMissingError e = true →
      writeMutationGo write (n + 1) k prev =
        ((writeMutationGo write n (k + 1) (some e)).1,
          WEvent.call k :: WEvent.sleep 4 ::
            (writeMutationGo write n (k + 1) (some e)).2)) ∧
    (∀ write : Nat → Option GoErr,
      (∀ j, j < 1000 → ∃ e, write j = some e ∧ parentDataMissingError e = true) →
      (writeMutation write).1 = write 999 ∧
        countWCalls (writeMutation write).2 = 1000) ∧
    (∀ (w : Nat → Option GoErr) (srcTable spTable eventName : String)
        (spCols : List String) (spVals : List (Option α)) (srcSchema : SchemaTable)
        (m : Mutation α) (e : GoErr),
      getMutation eventName srcTable spTable spCols spVals srcSchema = some m →
      (writeMutation w).1 = some e →
      writeRecord (some w) srcTable spTable eventName spCols spVals srcSchema =
        some ((writeMutation w).2.map REvent.wev ++
          [REvent.statsAddDroppedRecord srcTable eventName,
            REvent.collectDroppedRecord eventName spTable spCols spVals e])) := by
  refine ⟨?_, ?_, ?_, ?_, ?_, ?_⟩
  · intro write
    exact writeMutationGo_calls_le write 1000 0 none
  · intro write hw
    simp [writeMutation, writeMutationGo, hw]
  · intro write e hw hp
    simp [writeMutation, writeMutationGo, hw, hp]
  · intro write n k prev e hw hp
    simp [writeMutationGo, hw, hp]
  · intro write hall
    have := writeMutationGo_exhaust write 1000 0 none
      (fun j hj => by simpa using hall j hj) (by omega)
    simpa [writeMutation] using this
  · intro w srcTable spTable eventName spCols spVals srcSchema m e hm he
    simp [writeRecord, hm, he]

/-- C3 witness. -/
theorem claim3_writeMutation_retry_policy_witness :
    countWCalls (writeMutation fun _ => some "NotFound Parent row is missing").2 ≤ 1000 ∧
    writeMutation (fun _ => none) = (none, [WEvent.call 0]) ∧
    writeMutation (fun _ => some "boom") = (some "boom", [WEvent.call 0]) ∧
    writeMutationGo (fun _ => some "NotFound the Parent row q is missing") 3 0 none =
      ((writeMutationGo (fun _ => some "NotFound the Parent row q is missing") 2 1
          (some "NotFound the Parent row q is missing")).1,
        WEvent.call 0 :: WEvent.sleep 4 ::
          (writeMutationGo (fun _ => some "NotFound the Parent row q is missing") 2 1
            (some "NotFound the Parent row q is missing")).2) ∧
    (writeMutation fun _ => some "NotFound Parent row is missing").1 =
      some "NotFound Parent row is missing" ∧
    writeRecord (α := Nat) (some fun _ => some "boom") "t" "T" "INSERT" ["c"]
        [some 1] ⟨["c"], [⟨"c"⟩]⟩ =
      some ((writeMutation fun _ => some "boom").2.map REvent.wev ++
        [REvent.statsAddDroppedRecord "t" "INSERT",
          REvent.collectDroppedRecord "INSERT" "T" ["c"] [some 1] "boom"]) := by
  refine ⟨?_, ?_, ?_, ?_, ?_, ?_⟩
  · exact (claim3_writeMutation_retry_policy (α := Nat)).1 _
  · exact (claim3_writeMutation_retry_policy (α := Nat)).2.1 _ rfl
  · exact (claim3_writeMutation_retry_policy (α := Nat)).2.2.1 _ "boom" rfl (by decide)
  · exact (claim3_writeMutation_retry_policy (α := Nat)).2.2.2.1 _ 2 0 none
      "NotFound the Parent row q is missing" rfl (by decide)
  · exact ((claim3_writeMutation_retry_policy (α := Nat)).2.2.2.2.1 _
      (fun j hj => ⟨"NotFound Parent row is missing", rfl, by decide⟩)).1
  · exact (claim3_writeMutation_retry_policy (α := Nat)).2.2.2.2.2 _ "t" "T" "INSERT"
      ["c"] [some 1] ⟨["c"], [⟨"c"⟩]⟩ (Mutation.insert "T" ["c"] [some 1]) "boom"
      (by decide) (by decide)

/-! ### C4 -/

/-- C4: a trimmed-data `getRecords` failure with `retryCount < 5` resets the
last evaluated sequence number to nil and retries (incrementing the counter,
recording no anomaly); once the counter has reached 5 a further failure
records exactly one anomaly and breaks; every successful `getRecords` call
resets the counter to 0; and a shard whose `getRecords` always returns a
TrimmedDataAccessException terminates after exactly 5 retries (6 fetch
attempts) with exactly one recorded anomaly. -/
theorem claim4_trimmed_records_retry_cap :
    (∀ (env : ShardEnv) (s : ShardLoopState) (e : GoErr) (it : String),
      env.getIter s.nIter = .ok it → env.getRecs s.nRecs = .error e →
      checkTrimmedDataError e = true → s.retryCount < 5 →
      shardStep env s = .next
        { s with
          lastEvaluatedSequenceNumber := none,
          retryCount := s.retryCount + 1,
          nIter := s.nIter + 1,
          nRecs := s.nRecs + 1 }
        [SEvent.getIterCall s.lastEvaluatedSequenceNumber, SEvent.getRecsCall it]) ∧
    (∀ (env : ShardEnv) (s : ShardLoopState) (e : GoErr) (it : String),
      env.getIter s.nIter = .ok it → env.getRecs s.nRecs = .error e →
      5 ≤ s.retryCount →
      shardStep env s = .stop
        [SEvent.getIterCall s.lastEvaluatedSequenceNumber, SEvent.getRecsCall it,
          SEvent.unexpected ("failed to fetch records: " ++ e)]) ∧
    (∀ (env : ShardEnv) (s : ShardLoopState) (it : String) (out : RecordsOutput),
      env.getIter s.nIter = .ok it → env.getRecs s.nRecs = .ok out →
      (∃ tr, shardStep env s = .stop tr) ∨
        (∃ s2 tr, shardStep env s = .next s2 tr ∧ s2.retryCount = 0)) ∧
    ((ProcessShard envTrimRecs "shard0" none 10 0).1 = some () ∧
      countUnexpectedS (ProcessShard envTrimRecs "shard0" none 10 0).2 = 1 ∧
      countGetRecsS (ProcessShard envTrimRecs "shard0" none 10 0).2 = 6) := by
  refine ⟨?_, ?_, ?_, ?_⟩
  · intro env s e it h1 h2 h3 h4
    simp [shardStep, h1, h2, h3, h4]
  · intro env s e it h1 h2 h3
    simp only [shardStep, h1, h2]
    rw [if_neg]
    rintro ⟨-, hlt⟩
    omega
  · intro env s it out h1 h2
    simp only [shardStep, h1, h2]
    split_ifs with hc1 hc2 hc3
    · exact Or.inl ⟨_, rfl⟩
    · exact Or.inr ⟨_, _, rfl, rfl⟩
    · exact Or.inr ⟨_, _, rfl, rfl⟩
    · exact Or.inr ⟨_, _, rfl, rfl⟩
  · refine ⟨by decide, by decide, by decide⟩

/-- C4 witness. -/
theorem claim4_trimmed_records_retry_cap_witness :
    shardStep envTrimRecs initShardLoopState = StepOut.next
      { initShardLoopState with
        lastEvaluatedSequenceNumber := none,
        retryCount := 1,
        nIter := 1,
        nRecs := 1 }
      [SEvent.getIterCall none, SEvent.getRecsCall "iter"] ∧
    shardStep envTrimRecs { initShardLoopState with retryCount := 5 } = StepOut.stop
      [SEvent.getIterCall none, SEvent.getRecsCall "iter",
        SEvent.unexpected
          ("failed to fetch records: " ++ "TrimmedDataAccessException: records expired")] ∧
    ((∃ tr, shardStep envOkEmpty { initShardLoopState with retryCount := 3 } =
        StepOut.stop tr) ∨
      (∃ s2 tr, shardStep envOkEmpty { initShardLoopState with retryCount := 3 } =
        StepOut.next s2 tr ∧ s2.retryCount = 0)) := by
  refine ⟨?_, ?_, ?_⟩
  · exact claim4_trimmed_records_retry_cap.1 envTrimRecs initShardLoopState
      "TrimmedDataAccessException: records expired" "iter" rfl rfl (by decide) (by decide)
  · exact claim4_trimmed_records_retry_cap.2.1 envTrimRecs
      { initShardLoopState with retryCount := 5 }
      "TrimmedDataAccessException: records expired" "iter" rfl rfl (by decide)
  · exact claim4_trimmed_records_retry_cap.2.2.1 envOkEmpty
      { initShardLoopState with retryCount := 3 } "iter"
      { records := [], nextShardIterator := some "next" } rfl rfl

/-! ### C10 -/

/-- C10: a trimmed-data `getShardIterator` failure resets the last evaluated
sequence number and retries unconditionally — the new state differs only in
the nil sequence number (and call counter): `retryCount` is untouched, no
anomaly is recorded and no sleep happens; consequently under an environment
whose `getShardIterator` always fails with a TrimmedDataAccessException the
worker loop never terminates (for every fuel the run is unfinished, its trace
consisting solely of iterator requests). -/
theorem claim10_trimmed_iterator_unbounded_retry :
    (∀ (env : ShardEnv) (s : ShardLoopState) (e : GoErr),
      env.getIter s.nIter = .error e → checkTrimmedDataError e = true →
      shardStep env s = .next
        { s with lastEvaluatedSequenceNumber := none, nIter := s.nIter + 1 }
        [SEvent.getIterCall s.lastEvaluatedSequenceNumber]) ∧
    (∀ (fuel : Nat) (s : ShardLoopState),
      (shardLoop envTrimIter fuel s).1 = none ∧
        ∀ ev ∈ (shardLoop envTrimIter fuel s).2, ∃ ls, ev = SEvent.getIterCall ls) ∧
    (∀ (shardId : String) (fuel wfuel : Nat),
      (ProcessShard envTrimIter shardId none fuel wfuel).1 = none) := by
  have hstep : ∀ (env : ShardEnv) (s : ShardLoopState) (e : GoErr),
      env.getIter s.nIter = .error e → checkTrimmedDataError e = true →
      shardStep env s = .next
        { s with lastEvaluatedSequenceNumber := none, nIter := s.nIter + 1 }
        [SEvent.getIterCall s.lastEvaluatedSequenceNumber] := by
    intro env s e h1 h2
    simp [shardStep, h1, h2]
  have hloop : ∀ (fuel : Nat) (s : ShardLoopState),
      (shardLoop envTrimIter fuel s).1 = none ∧
        ∀ ev ∈ (shardLoop envTrimIter fuel s).2, ∃ ls, ev = SEvent.getIterCall ls := by
    intro fuel
    induction fuel with
    | zero => intro s; exact ⟨rfl, by simp [shardLoop]⟩
    | succ m ih =>
      intro s
      have h := hstep envTrimIter s "TrimmedDataAccessException: iterator expired"
        rfl (by decide)
      rw [shardLoop, h]
      refine ⟨(ih _).1, ?_⟩
      intro ev hev
      simp only [List.mem_append, List.mem_singleton, List.mem_cons,
        List.not_mem_nil, or_false] at hev
      rcases hev with hev | hev
      · exact ⟨_, hev⟩
      · exact (ih _).2 ev hev
  refine ⟨hstep, hloop, ?_⟩
  intro shardId fuel wfuel
  simp [ProcessShard, (hloop fuel initShardLoopState).1]

/-- C10 witness. -/
theorem claim10_trimmed_iterator_unbounded_retry_witness :
    shardStep envTrimIter { initShardLoopState with retryCount := 4 } = StepOut.next
      { initShardLoopState with
        retryCount := 4,
        lastEvaluatedSequenceNumber := none,
        nIter := 1 }
      [SEvent.getIterCall none] ∧
    (ProcessShard envTrimIter "shard0" none 25 0).1 = none := by
  constructor
  · exact claim10_trimmed_iterator_unbounded_retry.1 envTrimIter
      { initShardLoopState with retryCount := 4 }
      "TrimmedDataAccessException: iterator expired" rfl (by decide)
  · exact claim10_trimmed_iterator_unbounded_retry.2.2 "shard0" 25 0

/-- When the parent flag reads false at every poll within the budget, the
wait loop does not return; its trace alternates false polls and 6-second
sleeps. -/
theorem waitForParentShard_never_done (polls : Nat → Bool) :
    ∀ (fuel k : Nat), (∀ j, j < fuel → polls (k + j) = false) →
      waitForParentShard polls fuel k =
        (none, (List.replicate fuel [SEvent.parentPoll false, SEvent.sleep 6]).flatten) := by
  intro fuel
  induction fuel with
  | zero => intro k _; rfl
  | succ m ih =>
    intro k h
    have h0 : polls k = false := by simpa using h 0 (by omega)
    have hrec := ih (k + 1) (fun j hj => by
      rw [show k + 1 + j = k + (j + 1) from by omega]
      exact h (j + 1) (by omega))
    simp [waitForParentShard, h0, hrec, List.replicate_succ]

/-- When the parent flag first reads true at poll `m` (within budget), the
wait loop makes `m` false polls, each followed by a 6-second sleep, and
returns on the true poll. -/
theorem waitForParentShard_done (polls : Nat → Bool) :
    ∀ (m fuel k : Nat), (∀ j, j < m → polls (k + j) = false) →
      polls (k + m) = true → m < fuel →
      waitForParentShard polls fuel k =
        (some (), (List.replicate m [SEvent.parentPoll false, SEvent.sleep 6]).flatten ++
          [SEvent.parentPoll true]) := by
  intro m
  induction m with
  | zero =>
    intro fuel k _ ht hlt
    cases fuel with
    | zero => omega
    | succ f =>
      simp only [Nat.add_zero] at ht
      simp [waitForParentShard, ht]
  | succ m2 ih =>
    intro fuel k h ht hlt
    cases fuel with
    | zero => omega
    | succ f =>
      have h0 : polls k = false := by simpa using h 0 (by omega)
      have hrec := ih f (k + 1)
        (fun j hj => by
          rw [show k + 1 + j = k + (j + 1) from by omega]
          exact h (j + 1) (by omega))
        (by rw [show k + 1 + m2 = k + (m2 + 1) from by omega]; exact ht)
        (by omega)
      simp [waitForParentShard, h0, hrec, List.replicate_succ]

/-- The wait trace contains no record application. -/
theorem countProcessRecS_waitTrace (n : Nat) :
    countProcessRecS (List.replicate n [SEvent.parentPoll false, SEvent.sleep 6]).flatten
      = 0 := by
  induction n with
  | zero => rfl
  | succ m ih => simpa [List.replicate_succ, countProcessRecS] using ih

/-! ### C1 -/

/-- C1: a shard with no parent begins its record loop immediately (no poll at
all); with a parent whose `ShardProcessed` entry reads false (or is absent) at
every poll, the worker keeps re-polling, each false poll followed by a
6-second sleep, and never calls `ProcessRecord`; and when the parent's entry
first reads true at poll `m`, the record loop (and the shard's own status
update) starts strictly after that true poll, preceded by exactly `m`
false-poll/sleep pairs. -/
theorem claim1_parent_gate_before_records :
    (∀ (env : ShardEnv) (shardId : String) (fuel wfuel : Nat),
      ProcessShard env shardId none fuel wfuel =
        ((shardLoop env fuel initShardLoopState).1,
          SEvent.setStatus shardId false ::
            ((shardLoop env fuel initShardLoopState).2 ++
              statusTail (shardLoop env fuel initShardLoopState).1 shardId))) ∧
    (∀ (env : ShardEnv) (shardId p : String) (fuel wfuel : Nat),
      (∀ j, j < wfuel → env.parentPoll j = false) →
      ProcessShard env shardId (some p) fuel wfuel =
        (none, (List.replicate wfuel [SEvent.parentPoll false, SEvent.sleep 6]).flatten) ∧
      countProcessRecS (ProcessShard env shardId (some p) fuel wfuel).2 = 0) ∧
    (∀ (env : ShardEnv) (shardId p : String) (fuel wfuel m : Nat),
      (∀ j, j < m → env.parentPoll j = false) → env.parentPoll m = true →
      m < wfuel →
      ProcessShard env shardId (some p) fuel wfuel =
        ((shardLoop env fuel initShardLoopState).1,
          ((List.replicate m [SEvent.parentPoll false, SEvent.sleep 6]).flatten ++
              [SEvent.parentPoll true]) ++
            SEvent.setStatus shardId false ::
              ((shardLoop env fuel initShardLoopState).2 ++
                statusTail (shardLoop env fuel initShardLoopState).1 shardId))) := by
  refine ⟨?_, ?_, ?_⟩
  · intro env shardId fuel wfuel
    rfl
  · intro env shardId p fuel wfuel h
    have hw := waitForParentShard_never_done env.parentPoll wfuel 0
      (fun j hj => by simpa using h j hj)
    have heq : ProcessShard env shardId (some p) fuel wfuel =
        (none, (List.replicate wfuel [SEvent.parentPoll false, SEvent.sleep 6]).flatten) := by
      simp [ProcessShard, hw]
    exact ⟨heq, by rw [heq]; exact countProcessRecS_waitTrace wfuel⟩
  · intro env shardId p fuel wfuel m h ht hlt
    have hw := waitForParentShard_done env.parentPoll m wfuel 0
      (fun j hj => by simpa using h j hj) (by simpa using ht) hlt
    simp [ProcessShard, hw]

/-- C1 witness. -/
theorem claim1_parent_gate_before_records_witness :
    (ProcessShard envTrimRecs "child" (some "par") 5 2 =
      (none, (List.replicate 2 [SEvent.parentPoll false, SEvent.sleep 6]).flatten) ∧
      countProcessRecS (ProcessShard envTrimRecs "child" (some "par") 5 2).2 = 0) ∧
    ProcessShard envParentSecondPoll "child" (some "par") 3 3 =
      ((shardLoop envParentSecondPoll 3 initShardLoopState).1,
        ((List.replicate 1 [SEvent.parentPoll false, SEvent.sleep 6]).flatten ++
            [SEvent.parentPoll true]) ++
          SEvent.setStatus "child" false ::
            ((shardLoop envParentSecondPoll 3 initShardLoopState).2 ++
              statusTail (shardLoop envParentSecondPoll 3 initShardLoopState).1
                "child")) := by
  constructor
  · exact claim1_parent_gate_before_records.2.1 envTrimRecs "child" "par" 5 2
      (fun j _ => rfl)
  · exact claim1_parent_gate_before_records.2.2 envParentSecondPoll "child" "par" 3 3 1
      (fun j hj => by
        have hj0 : j = 0 := by omega
        subst hj0
        rfl)
      rfl (by omega)

/-! ### C8 -/

/-- C8 counterexample: with `UserExit` true from the very first read but
DescribeStream returning a non-nil `LastEvaluatedShardId` on every pass, the
discovery loop performs a DescribeStream call on each of 5 fuelled iterations
and still has not terminated — after observing `UserExit` in pass 1 it
executes four further passes, not one. -/
theorem claim8_counterexample_extra_passes :
    (ProcessStream envMorePages 5).1 = none ∧
      countDescribeP (ProcessStream envMorePages 5).2 = 5 := by
  exact ⟨by decide, by decide⟩

/-- C8 (amended): once `passAfterUserExit` is set, the next iteration never
sleeps and never reads `UserExit` again before its termination predicate; the
discovery loop breaks at the next describe result whose
`LastEvaluatedShardId` is nil (with a non-nil id it keeps describing), and a
shard worker breaks at the end of the next iteration whose two fetches
succeed, regardless of `NextShardIterator`; observing `UserExit` true sets
the flag and continues the loop without sleeping. -/
theorem claim8_amended_one_more_pass :
    (∀ (env : StreamEnv) (fuel : Nat) (s : StreamLoopState) (res : StreamDescription),
      s.passAfterUserExit = true → env.describe s.nDesc = .ok res →
      res.lastEvaluatedShardId = none →
      streamLoop env (fuel + 1) s =
        (some (), PEvent.describeCall s.lastProcessedShardId ::
          res.shards.map fun sh => PEvent.dispatch sh.shardId)) ∧
    (∀ (env : ShardEnv) (fuel : Nat) (s : ShardLoopState) (it : String)
        (out : RecordsOutput),
      s.passAfterUserExit = true → env.getIter s.nIter = .ok it →
      env.getRecs s.nRecs = .ok out →
      shardLoop env (fuel + 1) s =
        (some (), SEvent.getIterCall s.lastEvaluatedSequenceNumber ::
          SEvent.getRecsCall it ::
            out.records.map fun r => SEvent.processRec r.sequenceNumber)) ∧
    (∀ (env : StreamEnv) (s : StreamLoopState) (res : StreamDescription),
      env.describe s.nDesc = .ok res →
      ¬(res.lastEvaluatedShardId = none ∧ s.passAfterUserExit = true) →
      env.userExit s.nExit = true →
      streamStep env s = .next
        { lastProcessedShardId :=
            res.shards.foldl (fun _ sh => some sh.shardId) s.lastProcessedShardId,
          passAfterUserExit := true,
          nDesc := s.nDesc + 1,
          nExit := s.nExit + 1 }
        (PEvent.describeCall s.lastProcessedShardId ::
          res.shards.map fun sh => PEvent.dispatch sh.shardId)) := by
  refine ⟨?_, ?_, ?_⟩
  · intro env fuel s res hp hok hlast
    rw [streamLoop]
    simp [streamStep, hok, hlast, hp]
  · intro env fuel s it out hp hit hrecs
    rw [shardLoop]
    simp [shardStep, hit, hrecs, hp]
  · intro env s res hok hnot hue
    simp [streamStep, hok, hnot, hue]

/-- C8 witness. -/
theorem claim8_amended_one_more_pass_witness :
    streamLoop envRepeatShard 4
        { lastProcessedShardId := some "s1", passAfterUserExit := true,
          nDesc := 1, nExit := 1 } =
      (some (), [PEvent.describeCall (some "s1"), PEvent.dispatch "s1"]) ∧
    shardLoop envOkEmpty 1 { initShardLoopState with passAfterUserExit := true } =
      (some (), [SEvent.getIterCall none, SEvent.getRecsCall "iter"]) ∧
    streamStep envMorePages initStreamLoopState = StepOut.next
      { lastProcessedShardId := none, passAfterUserExit := true,
        nDesc := 1, nExit := 1 }
      [PEvent.describeCall none] := by
  refine ⟨?_, ?_, ?_⟩
  · exact claim8_amended_one_more_pass.1 envRepeatShard 3
      { lastProcessedShardId := some "s1", passAfterUserExit := true,
        nDesc := 1, nExit := 1 }
      { shards := [{ shardId := "s1", parentShardId := none }],
        lastEvaluatedShardId := none } rfl rfl rfl
  · exact claim8_amended_one_more_pass.2.1 envOkEmpty 0
      { initShardLoopState with passAfterUserExit := true } "iter"
      { records := [], nextShardIterator := some "next" } rfl rfl rfl
  · exact claim8_amended_one_more_pass.2.2 envMorePages initStreamLoopState
      { shards := [], lastEvaluatedShardId := some "more" } rfl (by simp) rfl

/-! ### C6 -/

/-- C6 counterexample: a shard id repeated by a later DescribeStream result is
dispatched again — `ProcessStream` keeps no local set of handed-out shard
ids.  Under `envRepeatShard`, shard "s1" appears in the first two describe
results and two workers are dispatched for it. -/
theorem claim6_counterexample_duplicate_dispatch :
    countDispatchOf "s1" (ProcessStream envRepeatShard 10).2 = 2 ∧
      (ProcessStream envRepeatShard 10).1 = some () := by
  exact ⟨by decide, by decide⟩

/-- `dispatchIds` distributes over append. -/
theorem dispatchIds_append (a b : List PEvent) :
    dispatchIds (a ++ b) = dispatchIds a ++ dispatchIds b := by
  induction a with
  | nil => rfl
  | cons h t ih => cases h <;> simp [dispatchIds, ih]

/-- The dispatch events of one pass carry exactly the shard ids of that
describe result. -/
theorem dispatchIds_map (l : List ShardDesc) :
    dispatchIds (l.map fun sh => PEvent.dispatch sh.shardId) =
      l.map fun sh => sh.shardId := by
  induction l with
  | nil => rfl
  | cons h t ih => simp [dispatchIds, ih]

/-- One discovery-loop iteration dispatches exactly the shard ids of the
describe result it consumed, and a continuing iteration advances the describe
counter by one. -/
theorem streamStep_dispatchIds (env : StreamEnv) (s : StreamLoopState) :
    (∀ tr, streamStep env s = .stop tr →
      dispatchIds tr = idsOfRes (env.describe s.nDesc)) ∧
    (∀ s2 tr, streamStep env s = .next s2 tr →
      dispatchIds tr = idsOfRes (env.describe s.nDesc) ∧ s2.nDesc = s.nDesc + 1) := by
  cases hd : env.describe s.nDesc with
  | error e =>
    constructor
    · intro tr htr
      simp only [streamStep, hd] at htr
      cases htr
      simp [dispatchIds, idsOfRes]
    · intro s2 tr htr
      simp only [streamStep, hd] at htr
      cases htr
  | ok res =>
    constructor
    · intro tr htr
      simp only [streamStep, hd] at htr
      split_ifs at htr <;> cases htr <;>
        simp [dispatchIds, dispatchIds_map, idsOfRes]
    · intro s2 tr htr
      simp only [streamStep, hd] at htr
      split_ifs at htr <;> cases htr <;>
        simp [dispatchIds, dispatchIds_append, dispatchIds_map, idsOfRes]

/-- Run-level dispatch accounting: with globally distinct shard ids across
describe results, every run dispatches each id at most once, and every
dispatched id stems from a describe call not earlier than the starting
counter. -/
theorem streamLoop_dispatch_nodup (env : StreamEnv)
    (hnod : ∀ i, (idsOfRes (env.describe i)).Nodup)
    (hdisj : ∀ i j a, a ∈ idsOfRes (env.describe i) →
      a ∈ idsOfRes (env.describe j) → i = j) :
    ∀ (fuel : Nat) (s : StreamLoopState),
      (dispatchIds (streamLoop env fuel s).2).Nodup ∧
        ∀ a ∈ dispatchIds (streamLoop env fuel s).2,
          ∃ i, s.nDesc ≤ i ∧ a ∈ idsOfRes (env.describe i) := by
  intro fuel
  induction fuel with
  | zero => intro s; simp [streamLoop, dispatchIds]
  | succ m ih =>
    intro s
    rw [streamLoop]
    cases hstep : streamStep env s with
    | stop tr =>
      have h1 := (streamStep_dispatchIds env s).1 tr hstep
      simp only [h1]
      exact ⟨hnod s.nDesc, fun a ha => ⟨s.nDesc, Nat.le_refl _, ha⟩⟩
    | next s2 tr =>
      obtain ⟨h1, h2⟩ := (streamStep_dispatchIds env s).2 s2 tr hstep
      have hrec := ih s2
      simp only [dispatchIds_append, h1]
      constructor
      · rw [List.nodup_append]
        refine ⟨hnod s.nDesc, hrec.1, ?_⟩
        intro a ha hb
        obtain ⟨i, hi, hmem⟩ := hrec.2 a hb
        have : s.nDesc = i := hdisj s.nDesc i a ha hmem
        omega
      · intro a ha
        rcases List.mem_append.mp ha with h | h
        · exact ⟨s.nDesc, Nat.le_refl _, h⟩
        · obtain ⟨i, hi, hmem⟩ := hrec.2 a h
          exact ⟨i, by omega, hmem⟩

/-- C6 (amended): `ProcessStream` dispatches one worker per shard entry of
every describe result; there is no local set of handed-out ids, so each shard
id is dispatched at most once exactly when the describe results never repeat
an id (the deduplication rests on `ExclusiveStartShardId` pagination, i.e. on
the service not repeating shards): under globally distinct shard ids every id
is dispatched to at most one worker. -/
theorem claim6_amended_dispatch_unique_iff_results_unique (env : StreamEnv)
    (hnod : ∀ i, (idsOfRes (env.describe i)).Nodup)
    (hdisj : ∀ i j a, a ∈ idsOfRes (env.describe i) →
      a ∈ idsOfRes (env.describe j) → i = j) :
    ∀ (fuel : Nat) (i : String),
      countDispatchOf i (ProcessStream env fuel).2 ≤ 1 := by
  intro fuel i
  have h := (streamLoop_dispatch_nodup env hnod hdisj fuel initStreamLoopState).1
  exact List.nodup_iff_count_le_one.mp h i

/-- C6 witness: an environment whose two passes return distinct shards. -/
theorem claim6_amended_dispatch_unique_iff_results_unique_witness :
    countDispatchOf "s1"
      (ProcessStream
        { describe := fun n =>
            if n = 0 then
              .ok { shards := [{ shardId := "s1", parentShardId := none }],
                    lastEvaluatedShardId := some "s1" }
            else .ok { shards := [], lastEvaluatedShardId := none },
          userExit := fun _ => true } 10).2 ≤ 1 := by
  refine claim6_amended_dispatch_unique_iff_results_unique _ ?_ ?_ 10 "s1"
  · intro i
    by_cases h : i = 0 <;> simp [idsOfRes, h]
  · intro i j a hi hj
    by_cases h : i = 0 <;> by_cases h2 : j = 0 <;>
      simp [idsOfRes, h, h2] at hi hj <;> omega

/-- `countProcessedR` distributes over append. -/
theorem countProcessedR_append {α : Type} (a b : List (REvent α)) :
    countProcessedR (a ++ b) = countProcessedR a + countProcessedR b := by
  induction a with
  | nil => simp [countProcessedR]
  | cons h t ih => cases h <;> simp [countProcessedR, ih] <;> omega

/-- Write-loop events carry no processed-count increment. -/
theorem countProcessedR_map_wev {α : Type} (l : List WEvent) :
    countProcessedR (l.map (REvent.wev (α := α))) = 0 := by
  induction l with
  | nil => rfl
  | cons h t ih => simp [countProcessedR, ih]

/-- `writeRecord` never increments the processed count. -/
theorem writeRecord_no_processed {α : Type} (writer : Option (Nat → Option GoErr))
    (srcTable spTable eventName : String) (spCols : List String)
    (spVals : List (Option α)) (srcSchema : SchemaTable) (m : List (REvent α))
    (h : writeRecord writer srcTable spTable eventName spCols spVals srcSchema =
      some m) :
    countProcessedR m = 0 := by
  cases writer with
  | none =>
    simp only [writeRecord, Option.some.injEq] at h
    subst h
    rfl
  | some w =>
    simp only [writeRecord] at h
    cases hg : getMutation eventName srcTable spTable spCols spVals srcSchema with
    | none => rw [hg] at h; cases h
    | some mu =>
      rw [hg] at h
      simp only [Option.some.injEq] at h
      subst h
      rw [countProcessedR_append, countProcessedR_map_wev]
      cases (writeMutation w).1 <;> rfl

/-! ### C5 -/

/-- C5 counterexample: a record for which schema resolution fails is passed
to `ProcessRecord`, which records an anomaly and returns **without**
incrementing `RecordsProcessed` — the increment is not unconditional. -/
theorem claim5_counterexample_schema_failure_skips_increment :
    ProcessRecord (α := Unit) (ι := Unit) none (Except.error "schema mismatch")
        (fun _ => ([], [], [])) ⟨"INSERT", (), ()⟩ "mytable" =
      some [REvent.statsAddRecord "mytable" "INSERT",
        REvent.unexpected
          "Cant get cols and schemas for table mytable: schema mismatch"] ∧
    countProcessedR ((ProcessRecord (α := Unit) (ι := Unit) none
        (Except.error "schema mismatch") (fun _ => ([], [], []))
        ⟨"INSERT", (), ()⟩ "mytable").getD []) = 0 := by
  exact ⟨rfl, rfl⟩

/-- C5 (amended): every completing `ProcessRecord` call increments
`RecordsProcessed` exactly once if schema resolution for the source table
succeeded — on both the good-columns path and the bad-columns path — and not
at all if it failed; on failure the call records one anomaly and returns
early. -/
theorem claim5_amended_processed_iff_schema_ok {α ι : Type} :
    (∀ (writer : Option (Nat → Option GoErr))
        (schemaRes : Except GoErr (SchemaTable × String × List String))
        (cvt : ι → List (Option α) × List String × List String)
        (record : DRecord ι) (srcTable : String) (tr : List (REvent α)),
      ProcessRecord writer schemaRes cvt record srcTable = some tr →
      countProcessedR tr = match schemaRes with
        | .ok _ => 1
        | .error _ => 0) ∧
    (∀ (writer : Option (Nat → Option GoErr))
        (cvt : ι → List (Option α) × List String × List String)
        (record : DRecord ι) (srcTable : String) (e : GoErr),
      ProcessRecord writer (Except.error e) cvt record srcTable =
        some [REvent.statsAddRecord srcTable record.eventName,
          REvent.unexpected
            ("Cant get cols and schemas for table " ++ srcTable ++ ": " ++ e)]) := by
  constructor
  · intro writer schemaRes cvt record srcTable tr h
    cases schemaRes with
    | error e =>
      simp only [ProcessRecord, List.cons_append, List.nil_append,
        Option.some.injEq] at h
      subst h
      rfl
    | ok trip =>
      obtain ⟨ss, st, sc⟩ := trip
      simp only [ProcessRecord, Option.map_eq_some'] at h
      obtain ⟨m, hm, htr⟩ := h
      subst htr
      rw [countProcessedR_append, countProcessedR_append]
      have hm0 : countProcessedR m = 0 := by
        by_cases hbad : (cvt (if record.eventName = "REMOVE" then record.keys
            else record.newImage)).2.1 = []
        · rw [if_pos hbad] at hm
          exact writeRecord_no_processed _ _ _ _ _ _ _ _ hm
        · rw [if_neg hbad] at hm
          simp only [Option.some.injEq] at hm
          subst hm
          rfl
      rw [hm0]
      rfl
  · intro writer cvt record srcTable e
    rfl

/-- C5 witness. -/
theorem claim5_amended_processed_iff_schema_ok_witness :
    countProcessedR ((ProcessRecord (α := Unit) (ι := Unit) none
        (Except.ok (⟨[], []⟩, "T", [])) (fun _ => ([], [], []))
        ⟨"INSERT", (), ()⟩ "t").getD []) = 1 ∧
    ProcessRecord (α := Unit) (ι := Unit) none (Except.error "boom")
        (fun _ => ([], [], [])) ⟨"MODIFY", (), ()⟩ "t" =
      some [REvent.statsAddRecord "t" "MODIFY",
        REvent.unexpected "Cant get cols and schemas for table t: boom"] := by
  constructor
  · have h := (claim5_amended_processed_iff_schema_ok (α := Unit) (ι := Unit)).1
      none (Except.ok (⟨[], []⟩, "T", [])) (fun _ => ([], [], []))
      ⟨"INSERT", (), ()⟩ "t"
      [REvent.statsAddRecord "t" "INSERT",
        REvent.statsAddBadRecord "t" "INSERT",
        REvent.unexpected "Internal error: writeRecord called but writer not configured",
        REvent.statsAddRecordProcessed] rfl
    exact h
  · exact (claim5_amended_processed_iff_schema_ok (α := Unit) (ι := Unit)).2
      none (fun _ => ([], [], [])) ⟨"MODIFY", (), ()⟩ "t" "boom"

/-- Ring writes preserve the ring length. -/
theorem ringWr_length : ∀ (ds : List Int) (r : List Int) (t : Nat),
    (ringWr r t ds).length = r.length := by
  intro ds
  induction ds with
  | nil => intro r t; rfl
  | cons d rest ih =>
    intro r t
    rw [ringWr, ih, List.length_set]

/-- Ring writes split over append. -/
theorem ringWr_append : ∀ (a b r : List Int) (t : Nat),
    ringWr r t (a ++ b) = ringWr (ringWr r t a) (t + a.length) b := by
  intro a
  induction a with
  | nil => intro b r t; simp [ringWr]
  | cons d rest ih =>
    intro b r t
    have h1 : ringWr r t ((d :: rest) ++ b) =
        ringWr (r.set (t % 5) d) (t + 1) (rest ++ b) := rfl
    have h2 : ringWr r t (d :: rest) = ringWr (r.set (t % 5) d) (t + 1) rest := rfl
    rw [h1, ih, h2, List.length_cons,
      show t + (rest.length + 1) = t + 1 + rest.length from by omega]

/-- A slot never written by a run of ring writes keeps its value. -/
theorem ringWr_getD_untouched : ∀ (ds r : List Int) (t j : Nat),
    (∀ i, i < ds.length → (t + i) % 5 ≠ j) →
    (ringWr r t ds).getD j 0 = r.getD j 0 := by
  intro ds
  induction ds with
  | nil => intro r t j _; rfl
  | cons d rest ih =>
    intro r t j h
    rw [ringWr]
    rw [ih (r.set (t % 5) d) (t + 1) j (fun i hi => by
      have := h (i + 1) (by simp; omega)
      rw [show t + 1 + i = t + (i + 1) from by omega]
      exact this)]
    have h0 : t % 5 ≠ j := by simpa using h 0 (by simp)
    rw [List.getD_eq_getElem?_getD, List.getD_eq_getElem?_getD,
      List.getElem?_set_ne h0]

/-- Every slot of the initial ring is zero. -/
theorem zeros_getD (j : Nat) : ([0, 0, 0, 0, 0] : List Int).getD j 0 = 0 := by
  by_cases h : j < 5
  · interval_cases j <;> rfl
  · exact List.getD_eq_default _ _ (by simp; omega)

/-- Reading at position `a.length` of `a ++ d0 :: b` yields `d0`. -/
theorem getD_append_cons (a : List Int) (d0 : Int) (b : List Int) :
    (a ++ d0 :: b).getD a.length 0 = d0 := by
  induction a with
  | nil => rfl
  | cons x t ih =>
    simp only [List.cons_append, List.length_cons, List.getD_eq_getElem?_getD,
      List.getElem?_cons_succ] at *
    exact ih

/-- Reading the current slot of the ring after `a ++ d0 :: b` (with `b` of
length 4) yields `d0`: the slot written five ticks ago. -/
theorem ringWr_read_helper (a : List Int) (d0 : Int) (b : List Int)
    (hb : b.length = 4) :
    (ringWr [0, 0, 0, 0, 0] 0 (a ++ d0 :: b)).getD
      ((a ++ d0 :: b).length % 5) 0 = d0 := by
  have hlen : (a ++ d0 :: b).length = a.length + 5 := by
    simp [hb]
  rw [hlen, ringWr_append]
  simp only [Nat.zero_add]
  rw [ringWr]
  rw [ringWr_getD_untouched b _ (a.length + 1) ((a.length + 5) % 5)
    (fun i hi => by rw [hb] at hi; omega)]
  have hmod : (a.length + 5) % 5 = a.length % 5 := by omega
  rw [hmod, List.getD_eq_getElem?_getD,
    List.getElem?_set_self (by rw [ringWr_length]; exact Nat.mod_lt _ (by norm_num))]
  rfl

/-- Reading the current slot of the ring after the deltas `ds` yields the
delta written five ticks ago (zero during the first five ticks). -/
theorem ringWr_read_current (ds : List Int) :
    (ringWr [0, 0, 0, 0, 0] 0 ds).getD (ds.length % 5) 0 =
      if 5 ≤ ds.length then ds.getD (ds.length - 5) 0 else 0 := by
  by_cases h5 : 5 ≤ ds.length
  · rw [if_pos h5]
    have hd : ds.length - 5 < ds.length := by omega
    have hdrop : ds.drop (ds.length - 5) = ds[ds.length - 5] :: ds.drop (ds.length - 4) := by
      rw [List.drop_eq_getElem_cons hd]
      congr 2
      omega
    have hs : ds.take (ds.length - 5) ++ ds[ds.length - 5] :: ds.drop (ds.length - 4) = ds := by
      rw [← hdrop]
      exact List.take_append_drop _ _
    have hb : (ds.drop (ds.length - 4)).length = 4 := by
      rw [List.length_drop]; omega
    have hta : (ds.take (ds.length - 5)).length = ds.length - 5 := by
      rw [List.length_take]; omega
    have hlen2 : (ds.take (ds.length - 5) ++
        ds[ds.length - 5] :: ds.drop (ds.length - 4)).length = ds.length := by
      rw [hs]
    rw [← hs, ringWr_read_helper _ _ _ hb, hlen2]
    have hgd := getD_append_cons (ds.take (ds.length - 5)) ds[ds.length - 5]
      (ds.drop (ds.length - 4))
    rw [hta] at hgd
    exact hgd.symm
  · rw [if_neg h5]
    rw [ringWr_getD_untouched _ _ _ _ (fun i hi => by omega)]
    exact zeros_getD _

/-- One `cutoverHelper` tick maps the abstract state after `ds` to the
abstract state after `ds ++ [new delta]` and reports the spec-side flag. -/
theorem cutStep_stateAfter (ds : List Int) (rp : Int) :
    cutStep rp (stateAfter ds) =
      (stateAfter (ds ++ [rp - ds.sum]), cutoverSpecFlag (ds ++ [rp - ds.sum])) := by
  have harr : (ringWr [0, 0, 0, 0, 0] 0 ds).set (ds.length % 5) (rp - ds.sum) =
      ringWr [0, 0, 0, 0, 0] 0 (ds ++ [rp - ds.sum]) := by
    rw [ringWr_append]
    simp [ringWr]
  have hfirst : (if ds.length < 5 then (ds.take 5).sum + (rp - ds.sum)
        else (ds.take 5).sum) = ((ds ++ [rp - ds.sum]).take 5).sum := by
    by_cases h5 : ds.length < 5
    · rw [if_pos h5,
        List.take_of_length_le (l := ds ++ [rp - ds.sum])
          (by simp only [List.length_append, List.length_singleton]; omega),
        List.take_of_length_le (by omega), List.sum_append]
      simp
    · rw [if_neg h5, List.take_append_of_le_length (by omega)]
  have hlast : (ds.drop (ds.length - 5)).sum -
        (ringWr [0, 0, 0, 0, 0] 0 ds).getD (ds.length % 5) 0 + (rp - ds.sum) =
      ((ds ++ [rp - ds.sum]).drop ((ds ++ [rp - ds.sum]).length - 5)).sum := by
    rw [ringWr_read_current]
    have hlen : (ds ++ [rp - ds.sum]).length = ds.length + 1 := by simp
    rw [hlen]
    by_cases h5 : 5 ≤ ds.length
    · rw [if_pos h5]
      have hd : ds.length - 5 < ds.length := by omega
      have hdrop : ds.drop (ds.length - 5) =
          ds[ds.length - 5] :: ds.drop (ds.length - 4) := by
        rw [List.drop_eq_getElem_cons hd]
        congr 2
        omega
      rw [List.getD_eq_getElem _ _ hd, hdrop,
        show ds.length + 1 - 5 = ds.length - 4 from by omega,
        List.drop_append_of_le_length (by omega), List.sum_append, List.sum_cons]
      simp only [List.sum_cons, List.sum_nil]
      ring
    · rw [if_neg h5, show ds.length - 5 = 0 from by omega,
        show ds.length + 1 - 5 = 0 from by omega]
      simp only [List.drop_zero, List.sum_append, List.sum_cons, List.sum_nil]
      ring
  have hflag : cutoverSpecFlag (ds ++ [rp - ds.sum]) =
      (decide (((ds ++ [rp - ds.sum]).drop ((ds ++ [rp - ds.sum]).length - 5)).sum
          * 100 ≤ 5 * ((ds ++ [rp - ds.sum]).take 5).sum) ||
        decide ((rp - ds.sum) = 0)) := by
    rw [cutoverSpecFlag, List.getLast?_concat]
    congr 1
    · rw [decide_eq_decide]
      constructor <;> intro h <;> linarith [h]
    · simp
  rw [cutStep, stateAfter, stateAfter]
  simp only []
  rw [Prod.mk.injEq, CutState.mk.injEq]
  refine ⟨⟨by simp, ?_, ?_, by simp [List.sum_append], by rw [harr]⟩, ?_⟩
  · exact hfirst
  · exact hlast
  · rw [hflag, hfirst, hlast]

/-- Full-run refinement for `cutoverHelper`: starting from the abstract state
after `ds`, consuming the readings `rest` lands in the abstract state after
the extended delta history and reports the spec-side flags. -/
theorem cutoverHelper_stateAfter : ∀ (rest ds : List Int),
    cutoverHelper rest (stateAfter ds) =
      (stateAfter (ds ++ minuteDeltasFrom ds.sum rest),
        cutoverSpecFlags ds (minuteDeltasFrom ds.sum rest)) := by
  intro rest
  induction rest with
  | nil => intro ds; simp [cutoverHelper, minuteDeltasFrom, cutoverSpecFlags]
  | cons rp rest2 ih =>
    intro ds
    have hsum : (ds ++ [rp - ds.sum]).sum = rp := by
      rw [List.sum_append]
      simp
    have hihr := ih (ds ++ [rp - ds.sum])
    rw [hsum] at hihr
    rw [cutoverHelper, cutStep_stateAfter]
    simp only [hihr, minuteDeltasFrom, cutoverSpecFlags, List.append_assoc,
      List.cons_append, List.nil_append]

/-! ### C7 -/

/-- C7: at every tick of the cutover advisor, the reported optimum flag is
true exactly when 100 times the sum of the most recent five one-minute deltas
is at most 5 times the sum of the first five one-minute deltas, or the most
recent delta is zero (`cutoverSpecFlags`, built from the claim wording); and
the loop state is exactly the abstraction `stateAfter`: the deltas live in
the five-element ring `ringWr` indexed by tick mod 5 (the replaced element
having been subtracted from `lastFiveMin`, which always equals the sum of the
most recent five deltas), and `firstFiveMin` is the sum of only the first
five deltas. -/
theorem claim7_cutover_optimum_flag (snaps : List Int) :
    (cutoverHelper snaps cutInit).2 = cutoverSpecFlags [] (minuteDeltas snaps) ∧
    (cutoverHelper snaps cutInit).1 = stateAfter (minuteDeltas snaps) := by
  have h0 : cutInit = stateAfter [] := rfl
  have h := cutoverHelper_stateAfter snaps []
  simp only [List.sum_nil, List.nil_append] at h
  rw [h0, h, minuteDeltas]
  exact ⟨rfl, rfl⟩

end HarbourBridge
